import Mathlib

/-!
Verification of the typed-rpc JSON-RPC protocol layer.

The development shallowly embeds the repository code:
- `src/server.ts`: `isJsonRpcRequest`, `hasProperty`, `hasMethod`,
  `getErrorCode`, `getErrorMessage`, `getErrorData`, `getRequestId`,
  `handleRpc` (instantiated at its default options: identity transcoder,
  no `onError`, default error getters).
- `src/client.ts`: `isJsonRpcResponse`, `createRequest`,
  `removeTrailingUndefs`, and the `websocketTransport` variant that lives
  in `client.ts`.
- `src/ws.ts`: the `websocketTransport` pending-call state machine.

JavaScript values are modelled by the inductive type `JsValue`.  Numbers
are modelled as `Int` (every number appearing in the verified code paths
is an integer: ids, error codes, lengths).  Functions are modelled as
opaque identifiers (`JsValue.func fid`) resolved by an environment
`Env : Nat -> JsValue -> List JsValue -> Except JsValue JsValue`
mapping a function id and a receiver and an argument list to either a
normal completion (`Except.ok`) or a thrown value (`Except.error`).
Promise rejection and synchronous throw are identified, as `await`
erases the difference inside `handleRpc`.
-/

/-- A JavaScript value.  `obj` carries the own properties (in insertion
order) and the prototype (`none` models a null prototype).  `func`
is an opaque function identifier resolved by an `Env`. -/
inductive JsValue where
  | undef : JsValue
  | null : JsValue
  | bool (b : Bool) : JsValue
  | num (n : Int) : JsValue
  | str (s : String) : JsValue
  | arr (elems : List JsValue) : JsValue
  | obj (fields : List (String × JsValue)) (proto : Option JsValue) : JsValue
  | func (fid : Nat) : JsValue

/-- The outcome of calling a JavaScript function: a value or a thrown value. -/
abbrev JsOutcome := Except JsValue JsValue

/-- Resolves opaque function identifiers: receiver and arguments to outcome. -/
abbrev Env := Nat → JsValue → List JsValue → JsOutcome

/-- First own field with the given key, mirroring property lookup on the
own-property list of an object. -/
def findField : List (String × JsValue) → String → Option JsValue
  | [], _ => none
  | (k, v) :: rest, key => if k == key then some v else findField rest key

/-- The standard `Object.prototype`: its members are inherited by every
plain object and are all function-valued.  The behaviour of the
builtins is supplied by the `Env` in use. -/
def objectPrototype : JsValue :=
  JsValue.obj
    [("constructor", JsValue.func 100),
     ("hasOwnProperty", JsValue.func 101),
     ("isPrototypeOf", JsValue.func 102),
     ("propertyIsEnumerable", JsValue.func 103),
     ("toLocaleString", JsValue.func 104),
     ("toString", JsValue.func 105),
     ("valueOf", JsValue.func 106)]
    none

/-- Result of the JavaScript `typeof v === "object"` test (true for
`null`, plain objects and arrays). -/
def isObjectTypeof : JsValue → Bool
  | JsValue.null => true
  | JsValue.obj _ _ => true
  | JsValue.arr _ => true
  | _ => false

def isNullV : JsValue → Bool
  | JsValue.null => true
  | _ => false

def isUndefV : JsValue → Bool
  | JsValue.undef => true
  | _ => false

def isStringV : JsValue → Bool
  | JsValue.str _ => true
  | _ => false

def isNumV : JsValue → Bool
  | JsValue.num _ => true
  | _ => false

def isArrV : JsValue → Bool
  | JsValue.arr _ => true
  | _ => false

def isFuncV : JsValue → Bool
  | JsValue.func _ => true
  | _ => false

/-- Strict equality against the string literal "2.0". -/
def isStr2_0 : JsValue → Bool
  | JsValue.str s => s == "2.0"
  | _ => false

/-- The JavaScript `in` operator on objects and arrays: own properties,
then the prototype chain.  For arrays the index properties and
`length` are modelled; the (function-valued) members of
`Array.prototype` are not modelled, as no verified code path reaches
them.  `in` on primitives throws in JavaScript; every use in the
embedded code is guarded by `isObjectTypeof`, so primitives map to
`false` here. -/
def inProp : JsValue → String → Bool
  | JsValue.obj fields proto, p =>
    fields.any (fun f => f.1 == p) ||
      (match proto with
       | some pr => inProp pr p
       | none => false)
  | JsValue.arr xs, p =>
    p == "length" || (List.range xs.length).any (fun i => toString i == p)
  | _, _ => false

/-- JavaScript property read `v[p]`: own properties first, then the
prototype chain, `undefined` when absent.  Reads on primitives are
never reached by the embedded code (they are guarded), and map to
`undefined`. -/
def getProp : JsValue → String → JsValue
  | JsValue.obj fields proto, p =>
    (match findField fields p, proto with
     | some v, _ => v
     | none, some pr => getProp pr p
     | none, none => JsValue.undef)
  | JsValue.arr xs, p =>
    if p == "length" then JsValue.num xs.length
    else
      (match (List.range xs.length).find? (fun i => toString i == p) with
       | some i => xs.getD i JsValue.undef
       | none => JsValue.undef)
  | _, _ => JsValue.undef

/-- Whether the object has an own field with the given key. -/
def hasOwnField : JsValue → String → Bool
  | JsValue.obj fields _, p => fields.any (fun f => f.1 == p)
  | _, _ => false

/-- `hasProperty` from `src/server.ts`:
`typeof obj === "object" && obj !== null && prop in obj`. -/
def hasProperty (v : JsValue) (p : String) : Bool :=
  isObjectTypeof v && !(isNullV v) && inProp v p

/-- `hasMethod` from `src/server.ts`:
`hasProperty(obj, prop) && typeof obj[prop] === "function"`. -/
def hasMethod (v : JsValue) (p : String) : Bool :=
  hasProperty v p && isFuncV (getProp v p)

/-- `isJsonRpcRequest` from `src/server.ts` (the variant exported next to
`handleRpc`): an object with `jsonrpc === "2.0"`, a string `method`,
an `id` that is absent, a string, a number, or `null`, and `params`
absent or an array. -/
def isJsonRpcRequest (req : JsValue) : Bool :=
  if !(isObjectTypeof req) || isNullV req then false
  else
    isStr2_0 (getProp req "jsonrpc") &&
    isStringV (getProp req "method") &&
    (isUndefV (getProp req "id") || isStringV (getProp req "id") ||
      isNumV (getProp req "id") || isNullV (getProp req "id")) &&
    (isUndefV (getProp req "params") || isArrV (getProp req "params"))

/-- `getErrorCode` from `src/server.ts`: the `code` property of the
thrown value when it is a number, `-32000` otherwise. -/
def getErrorCode (err : JsValue) : Int :=
  if hasProperty err "code" then
    match getProp err "code" with
    | JsValue.num n => n
    | _ => -32000
  else -32000

/-- `getErrorMessage` from `src/server.ts`: the `message` property of the
thrown value when it is a string, the empty string otherwise. -/
def getErrorMessage (err : JsValue) : String :=
  if hasProperty err "message" then
    match getProp err "message" with
    | JsValue.str s => s
    | _ => ""
  else ""

mutual

/-- `JSON.parse(JSON.stringify(x))` on the modelled values: `none` when
`JSON.stringify` returns `undefined` (the value is `undefined` or a
function).  Inside arrays such elements become `null`; inside objects
such fields are dropped.  Only own fields are serialized; the parsed
copy is a plain object whose prototype is `Object.prototype`. -/
def jsonRoundTrip : JsValue → Option JsValue
  | JsValue.undef => none
  | JsValue.func _ => none
  | JsValue.null => some JsValue.null
  | JsValue.bool b => some (JsValue.bool b)
  | JsValue.num n => some (JsValue.num n)
  | JsValue.str s => some (JsValue.str s)
  | JsValue.arr xs => some (JsValue.arr (jsonRoundTripElems xs))
  | JsValue.obj fields _ =>
    some (JsValue.obj (jsonRoundTripFields fields) (some objectPrototype))

/-- Array elements whose serialization is `undefined` become `null`. -/
def jsonRoundTripElems : List JsValue → List JsValue
  | [] => []
  | x :: xs =>
    (jsonRoundTrip x).getD JsValue.null :: jsonRoundTripElems xs

/-- Object fields whose serialization is `undefined` are dropped. -/
def jsonRoundTripFields :
    List (String × JsValue) → List (String × JsValue)
  | [] => []
  | (k, v) :: rest =>
    match jsonRoundTrip v with
    | some v2 => (k, v2) :: jsonRoundTripFields rest
    | none => jsonRoundTripFields rest

end

/-- Replaces the first field with the given key, or appends a new field
at the end: the effect of assignment on the own-property list. -/
def setField : List (String × JsValue) → String → JsValue →
    List (String × JsValue)
  | [], k, v => [(k, v)]
  | f :: rest, k, v =>
    if f.1 == k then (k, v) :: rest else f :: setField rest k v

/-- JavaScript property assignment `o[k] = v` on an object: updates the
own field with that key, or creates a new own field.  The prototype
is untouched.  The embedded code only assigns to values it has
already checked with `hasProperty` (so to non-null objects); other
values are returned unchanged. -/
def setOwnField : JsValue → String → JsValue → JsValue
  | JsValue.obj fields proto, k, v => JsValue.obj (setField fields k v) proto
  | other, _, _ => other

/-- `getErrorData` from `src/server.ts`.  The source mutates the thrown
value (`err.data = JSON.parse(stringifiedData)`), so the embedding
returns a pair: the thrown value after the call, and the value the
function returns (`undefined` when there is no `data` property). -/
def getErrorData (err : JsValue) : JsValue × JsValue :=
  if hasProperty err "data" then
    match jsonRoundTrip (getProp err "data") with
    | some d => (setOwnField err "data" d, d)
    | none => (err, getProp err "data")
  else (err, JsValue.undef)

/-- `getRequestId` from `src/server.ts`: the `id` property when it is a
string or a number, `null` otherwise. -/
def getRequestId (req : JsValue) : JsValue :=
  if hasProperty req "id" then
    match getProp req "id" with
    | JsValue.str s => JsValue.str s
    | JsValue.num n => JsValue.num n
    | _ => JsValue.null
  else JsValue.null

/-- A thrown `TypeError`, as produced by spreading a non-iterable or by
calling a non-function.  Both paths are unreachable behind the guards
in `handleRpc` but are kept so that the embedding stays total without
changing any reachable behaviour. -/
def typeErrorValue (msg : String) : JsValue :=
  JsValue.obj [("name", JsValue.str "TypeError"), ("message", JsValue.str msg)]
    (some objectPrototype)

/-- Looks up `service[m]` and calls it with the given arguments;
calling a non-function throws a `TypeError`. -/
def callMethodWith (env : Env) (service : JsValue) (m : String)
    (args : List JsValue) : JsOutcome :=
  match getProp service m with
  | JsValue.func fid => env fid service args
  | _ => Except.error (typeErrorValue "service[method] is not a function")

/-- The call `service[method](...(params ?? []))` inside the `try` block
of `handleRpc`: nullish `params` spreads to no arguments, an array
spreads to its elements, and anything else throws a `TypeError`
(caught by the surrounding `catch`).  The property `service[method]`
is then invoked through the environment. -/
def tryInvoke (env : Env) (service : JsValue) (m : String)
    (paramsVal : JsValue) : JsOutcome :=
  match paramsVal with
  | JsValue.undef => callMethodWith env service m []
  | JsValue.null => callMethodWith env service m []
  | JsValue.arr xs => callMethodWith env service m xs
  | _ => Except.error (typeErrorValue "params is not iterable")

/-- The `res` helper closed over by `handleRpc`: the envelope literal
`\x7b jsonrpc: "2.0", id, ...data \x7d` (with the identity transcoder of
the default options). -/
def mkRes (id : JsValue) (data : List (String × JsValue)) : JsValue :=
  JsValue.obj (("jsonrpc", JsValue.str "2.0") :: ("id", id) :: data)
    (some objectPrototype)

/-- `handleRpc` from `src/server.ts` at its default options (identity
transcoder, no `onError`, default `getErrorCode` / `getErrorMessage` /
`getErrorData`).  The outer `Except` is the promise returned by the
async function: `Except.error` would mean the returned promise
rejects.  The `method` destructuring uses an empty-string fallback for
totality; it is unreachable because the validated request always has a
string `method`. -/
def handleRpc (env : Env) (request : JsValue) (service : JsValue) :
    Except JsValue JsValue :=
  let id := getRequestId request
  if !(isJsonRpcRequest request) then
    Except.ok (mkRes id
      [("error",
        JsValue.obj
          [("code", JsValue.num (-32600)),
           ("message", JsValue.str "Invalid Request")]
          (some objectPrototype))])
  else
    let m := match getProp request "method" with
      | JsValue.str s => s
      | _ => ""
    if !(hasMethod service m) then
      Except.ok (mkRes id
        [("error",
          JsValue.obj
            [("code", JsValue.num (-32601)),
             ("message", JsValue.str ("Method not found: " ++ m))]
            (some objectPrototype))])
    else
      match tryInvoke env service m (getProp request "params") with
      | Except.ok result => Except.ok (mkRes id [("result", result)])
      | Except.error err =>
        Except.ok (mkRes id
          [("error",
            JsValue.obj
              [("code", JsValue.num (getErrorCode err)),
               ("message", JsValue.str (getErrorMessage err)),
               ("data", (getErrorData err).2)]
              (some objectPrototype))])

/-- `isJsonRpcResponse` from `src/client.ts`: an object with
`jsonrpc === "2.0"`, an `id` that is a string, a number or `null`,
and exactly one of `result` / `error`; a present `error` must be a
non-null object with a numeric `code` and a string `message`. -/
def isJsonRpcResponse (res : JsValue) : Bool :=
  if !(isObjectTypeof res) || isNullV res then false
  else if !(inProp res "jsonrpc") || !(isStr2_0 (getProp res "jsonrpc")) then
    false
  else if !(inProp res "id") ||
      (!(isStringV (getProp res "id")) && !(isNumV (getProp res "id")) &&
        !(isNullV (getProp res "id"))) then
    false
  else if inProp res "result" then !(inProp res "error")
  else if inProp res "error" then
    isObjectTypeof (getProp res "error") && !(isNullV (getProp res "error")) &&
    inProp (getProp res "error") "code" &&
    isNumV (getProp (getProp res "error") "code") &&
    inProp (getProp res "error") "message" &&
    isStringV (getProp (getProp res "error") "message")
  else false

/-- `removeTrailingUndefs` from `src/client.ts`: a copy of the list
without its maximal run of trailing `undefined` values. -/
def removeTrailingUndefs : List JsValue → List JsValue
  | [] => []
  | x :: xs =>
    match removeTrailingUndefs xs with
    | [] => if isUndefV x then [] else [x]
    | y :: rest => x :: y :: rest

/-- `createRequest` from `src/client.ts`.  The source sets
`id: Date.now()`; the clock reading is passed in as `now`.  `params`
is the optional argument array; the own `params` field is only added
when the given array is non-empty (`if (params?.length)`), and then
holds the trimmed copy. -/
def createRequest (now : Int) (method : String)
    (params : Option (List JsValue)) : JsValue :=
  let base := [("jsonrpc", JsValue.str "2.0"), ("id", JsValue.num now),
    ("method", JsValue.str method)]
  match params with
  | none => JsValue.obj base (some objectPrototype)
  | some ps =>
    if ps.length != 0 then
      JsValue.obj (base ++ [("params", JsValue.arr (removeTrailingUndefs ps))])
        (some objectPrototype)
    else JsValue.obj base (some objectPrototype)

/-- The wire `params` carried by a request envelope: the own `params`
field when present. -/
def wireParams (req : JsValue) : Option JsValue :=
  if hasOwnField req "params" then some (getProp req "params") else none

/-- Key type of the pending-call map
(`Map<string | number, ...>` in both transport variants). -/
inductive WsKey where
  | s (v : String) : WsKey
  | n (v : Int) : WsKey
deriving DecidableEq, Repr

/-- `req.id ?? -1`: a string or number id is used as the map key, a
nullish id falls back to `-1`.  The static type of `req` restricts
`id` to string, number, `null` or absent. -/
def keyOfId : JsValue → WsKey
  | JsValue.str s => WsKey.s s
  | JsValue.num n => WsKey.n n
  | _ => WsKey.n (-1)

/-- State of the promise returned to one caller of the transport. -/
inductive PromiseState where
  | pending : PromiseState
  | resolved (v : JsValue) : PromiseState
  | rejected (msg : String) (code : Int) : PromiseState

/-- Settling an already settled promise is a no-op. -/
def rejectPromise (p : PromiseState) (msg : String) (code : Int) :
    PromiseState :=
  match p with
  | PromiseState.pending => PromiseState.rejected msg code
  | settled => settled

def resolvePromise (p : PromiseState) (v : JsValue) : PromiseState :=
  match p with
  | PromiseState.pending => PromiseState.resolved v
  | settled => settled

/-- One pending call: the map key it was registered under, whether its
timeout timer is still scheduled, and the promise handed to the
caller. -/
structure PendingCall where
  key : WsKey
  timerActive : Bool
  promise : PromiseState

/-- Association-list model of the pending-call `Map`; values are indices
into the call list. -/
def mapGet : List (WsKey × Nat) → WsKey → Option Nat
  | [], _ => none
  | (k, i) :: rest, key => if k = key then some i else mapGet rest key

/-- `Map.set`: replaces the entry for the key (a `Map` holds at most one
entry per key), or appends a new one. -/
def mapSet : List (WsKey × Nat) → WsKey → Nat → List (WsKey × Nat)
  | [], key, i => [(key, i)]
  | e :: rest, key, i =>
    if e.1 = key then (key, i) :: rest else e :: mapSet rest key i

def mapDelete (m : List (WsKey × Nat)) (key : WsKey) :
    List (WsKey × Nat) :=
  m.filter (fun e => e.1 != key)

/-- State of one `websocketTransport` instance: the configured timeout,
the pending-call map (`pendingResponses` in `src/ws.ts`, `requests` in
`src/client.ts`), every call closure created so far, and the log of
messages handed to `ws.send`. -/
structure WsState where
  timeout : Int
  map : List (WsKey × Nat)
  calls : List PendingCall
  sent : List JsValue

/-- A fresh transport: `pendingResponses` empty,
`timeout = options.timeout ?? 60_000` (the default applies when the
option is absent). -/
def wsInit (timeoutOption : Option Int) : WsState :=
  { timeout := timeoutOption.getD 60000, map := [], calls := [], sent := [] }

/-- One outbound call through the `src/ws.ts` transport (lines 110-142):
a `PendingResponse` closure is created, a timer is scheduled when
`timeout > 0`, `pendingResponses.set(requestId, pending)` registers it
(overwriting any entry already stored under that key), and the
serialized request is handed to `ws.send`.  There is no duplicate-id
check in this variant. -/
def wsSend (st : WsState) (req : JsValue) : WsState :=
  let key := keyOfId (getProp req "id")
  let call : PendingCall :=
    { key := key, timerActive := decide (st.timeout > 0),
      promise := PromiseState.pending }
  { st with
    calls := st.calls ++ [call]
    map := mapSet st.map key st.calls.length
    sent := st.sent ++ [req] }

/-- The timeout timer of call `i` fires (`src/ws.ts` lines 116-118): the
promise is rejected with `RpcError("Request timed out", -32000)`.
The handler does not remove the pending-map entry. -/
def wsFireTimeout (st : WsState) (i : Nat) : WsState :=
  match st.calls.get? i with
  | none => st
  | some c =>
    if c.timerActive then
      { st with
        calls := st.calls.set i
          { c with
            timerActive := false
            promise := rejectPromise c.promise "Request timed out" (-32000) } }
    else st

/-- The `message` listener of `src/ws.ts` (lines 64-94), after JSON
parsing: invalid envelopes and null-id notifications are dropped (the
former via `onMessageError`), an unknown id is reported via
`onMessageError`, and a matching pending call is removed from the map,
its timer cleared, and its promise resolved with the envelope. -/
def wsMessage (st : WsState) (res : JsValue) : WsState :=
  if !(isJsonRpcResponse res) then st
  else if isNullV (getProp res "id") then st
  else
    let key := keyOfId (getProp res "id")
    match mapGet st.map key with
    | none => st
    | some i =>
      match st.calls.get? i with
      | none => { st with map := mapDelete st.map key }
      | some c =>
        { st with
          map := mapDelete st.map key
          calls := st.calls.set i
            { c with
              timerActive := false
              promise := resolvePromise c.promise res } }

/-- The abort listener (`signal.onabort`, `src/ws.ts` lines 121-126) of
call `i`: the timer is cleared and the promise rejected with
`RpcError("Request aborted", -32000)`.  The map entry is not removed
here either. -/
def wsAbort (st : WsState) (i : Nat) : WsState :=
  match st.calls.get? i with
  | none => st
  | some c =>
    { st with
      calls := st.calls.set i
        { c with
          timerActive := false
          promise := rejectPromise c.promise "Request aborted" (-32000) } }

/-- The `RpcError` thrown by the `src/client.ts` transport variant on a
duplicate id. -/
structure RpcErrorV where
  message : String
  code : Int
deriving DecidableEq, Repr

/-- One outbound call through the `websocketTransport` variant embedded
in `src/client.ts` (lines 303-330): if the id is already pending the
call throws `RpcError("Request already exists", -32000)` before
creating any state; otherwise the pending call is registered in the
map before `ws.send` is invoked. -/
def clientWsSend (st : WsState) (req : JsValue) :
    Except RpcErrorV WsState :=
  let key := keyOfId (getProp req "id")
  if (mapGet st.map key).isSome then
    Except.error { message := "Request already exists", code := -32000 }
  else
    Except.ok
      { st with
        calls := st.calls ++
          [{ key := key, timerActive := decide (st.timeout > 0),
             promise := PromiseState.pending }]
        map := mapSet st.map key st.calls.length
        sent := st.sent ++ [req] }

/-- The envelope produced for a structurally invalid request. -/
def invalidRequestEnvelope (id : JsValue) : JsValue :=
  mkRes id
    [("error",
      JsValue.obj
        [("code", JsValue.num (-32600)),
         ("message", JsValue.str "Invalid Request")]
        (some objectPrototype))]

/-- The envelope produced when the method cannot be dispatched. -/
def methodNotFoundEnvelope (id : JsValue) (m : String) : JsValue :=
  mkRes id
    [("error",
      JsValue.obj
        [("code", JsValue.num (-32601)),
         ("message", JsValue.str ("Method not found: " ++ m))]
        (some objectPrototype))]

/-- The envelope produced when the invoked method returns normally. -/
def successEnvelope (id : JsValue) (result : JsValue) : JsValue :=
  mkRes id [("result", result)]

/-- The envelope produced by the `catch` branch for a thrown value. -/
def caughtErrorEnvelope (id : JsValue) (err : JsValue) : JsValue :=
  mkRes id
    [("error",
      JsValue.obj
        [("code", JsValue.num (getErrorCode err)),
         ("message", JsValue.str (getErrorMessage err)),
         ("data", (getErrorData err).2)]
        (some objectPrototype))]

theorem handleRpc_invalid (env : Env) (request service : JsValue)
    (h : isJsonRpcRequest request = false) :
    handleRpc env request service =
      Except.ok (invalidRequestEnvelope (getRequestId request)) := by
  simp [handleRpc, h, invalidRequestEnvelope]

theorem handleRpc_notFound (env : Env) (request service : JsValue)
    (m : String) (h1 : isJsonRpcRequest request = true)
    (hm : getProp request "method" = JsValue.str m)
    (h2 : hasMethod service m = false) :
    handleRpc env request service =
      Except.ok (methodNotFoundEnvelope (getRequestId request) m) := by
  simp [handleRpc, h1, hm, h2, methodNotFoundEnvelope]

theorem handleRpc_success (env : Env) (request service : JsValue)
    (m : String) (r : JsValue) (h1 : isJsonRpcRequest request = true)
    (hm : getProp request "method" = JsValue.str m)
    (h2 : hasMethod service m = true)
    (h3 : tryInvoke env service m (getProp request "params") = Except.ok r) :
    handleRpc env request service =
      Except.ok (successEnvelope (getRequestId request) r) := by
  simp [handleRpc, h1, hm, h2, h3, successEnvelope]

theorem handleRpc_caught (env : Env) (request service : JsValue)
    (m : String) (err : JsValue) (h1 : isJsonRpcRequest request = true)
    (hm : getProp request "method" = JsValue.str m)
    (h2 : hasMethod service m = true)
    (h3 : tryInvoke env service m (getProp request "params") =
      Except.error err) :
    handleRpc env request service =
      Except.ok (caughtErrorEnvelope (getRequestId request) err) := by
  simp [handleRpc, h1, hm, h2, h3, caughtErrorEnvelope]

theorem getRequestId_shape (req : JsValue) :
    getRequestId req = JsValue.null ∨
    (∃ s, getRequestId req = JsValue.str s) ∨
    (∃ n, getRequestId req = JsValue.num n) := by
  unfold getRequestId
  split
  · cases h : getProp req "id" <;> simp
  · simp

theorem isJsonRpcRequest_method_str {request : JsValue}
    (h : isJsonRpcRequest request = true) :
    ∃ s, getProp request "method" = JsValue.str s := by
  unfold isJsonRpcRequest at h
  split at h
  · exact absurd h (by simp)
  · simp only [Bool.and_eq_true] at h
    cases hgp : getProp request "method" <;>
      simp [hgp, isStringV] at h ⊢

theorem isJsonRpcResponse_successEnvelope (req r : JsValue) :
    isJsonRpcResponse (successEnvelope (getRequestId req) r) = true := by
  rcases getRequestId_shape req with h | ⟨s, h⟩ | ⟨n, h⟩ <;> rw [h] <;> rfl

theorem isJsonRpcResponse_invalidRequestEnvelope (req : JsValue) :
    isJsonRpcResponse (invalidRequestEnvelope (getRequestId req)) = true := by
  rcases getRequestId_shape req with h | ⟨s, h⟩ | ⟨n, h⟩ <;> rw [h] <;> rfl

theorem isJsonRpcResponse_methodNotFoundEnvelope (req : JsValue)
    (m : String) :
    isJsonRpcResponse (methodNotFoundEnvelope (getRequestId req) m) = true := by
  rcases getRequestId_shape req with h | ⟨s, h⟩ | ⟨n, h⟩ <;> rw [h] <;> rfl

theorem isJsonRpcResponse_caughtErrorEnvelope (req err : JsValue) :
    isJsonRpcResponse (caughtErrorEnvelope (getRequestId req) err) = true := by
  rcases getRequestId_shape req with h | ⟨s, h⟩ | ⟨n, h⟩ <;> rw [h] <;> rfl

/-- A thrown value with no own `code` field whose prototype carries a
numeric `code` (in JavaScript: `Object.create(\x7b code: 42 \x7d)`). -/
def inheritedCodeErr : JsValue :=
  JsValue.obj []
    (some (JsValue.obj [("code", JsValue.num 42)] (some objectPrototype)))

/-- A concrete environment: function id 0 is the `hello` method, id 1 a
method throwing `inheritedCodeErr`, id 105 the builtin
`Object.prototype.toString`. -/
def stdEnv : Env := fun fid _ _ =>
  match fid with
  | 0 => Except.ok (JsValue.str "Hello World!")
  | 1 => Except.error inheritedCodeErr
  | 105 => Except.ok (JsValue.str "[object Object]")
  | _ => Except.ok JsValue.undef

/-- A service literal with a single own method `hello`. -/
def helloService : JsValue :=
  JsValue.obj [("hello", JsValue.func 0)] (some objectPrototype)

/-- A service literal with a single own method `boom` that throws. -/
def boomService : JsValue :=
  JsValue.obj [("boom", JsValue.func 1)] (some objectPrototype)

def helloRequest : JsValue :=
  JsValue.obj
    [("jsonrpc", JsValue.str "2.0"), ("id", JsValue.num 1),
     ("method", JsValue.str "hello"),
     ("params", JsValue.arr [JsValue.str "World"])]
    (some objectPrototype)

/-- A notification-style request: no `id` property at all. -/
def notifRequest : JsValue :=
  JsValue.obj
    [("jsonrpc", JsValue.str "2.0"), ("method", JsValue.str "hello"),
     ("params", JsValue.arr [JsValue.str "World"])]
    (some objectPrototype)

def toStringRequest : JsValue :=
  JsValue.obj
    [("jsonrpc", JsValue.str "2.0"), ("id", JsValue.num 1),
     ("method", JsValue.str "toString"), ("params", JsValue.arr [])]
    (some objectPrototype)

def nonexistentRequest : JsValue :=
  JsValue.obj
    [("jsonrpc", JsValue.str "2.0"), ("id", JsValue.num 2),
     ("method", JsValue.str "nonexistent")]
    (some objectPrototype)

def boomRequest : JsValue :=
  JsValue.obj
    [("jsonrpc", JsValue.str "2.0"), ("id", JsValue.num 7),
     ("method", JsValue.str "boom"), ("params", JsValue.arr [])]
    (some objectPrototype)

/-- Claim C1: for every request value (well-formed or not), every service
object, and every outcome of the invoked method, `handleRpc` with
default options resolves with a structured response envelope carrying
exactly one of `result` / `error`, and never throws or rejects
(`Except.ok` is the resolved promise of the async function; a thrown
value during invocation lands in the `catch` branch and becomes an
error envelope rather than an `Except.error`). -/
theorem handleRpc_always_returns_envelope (env : Env)
    (request service : JsValue) :
    ∃ e, handleRpc env request service = Except.ok e ∧
      (hasOwnField e "result" || hasOwnField e "error") = true ∧
      (hasOwnField e "result" && hasOwnField e "error") = false := by
  cases h1 : isJsonRpcRequest request with
  | false =>
    exact ⟨_, handleRpc_invalid env request service h1, rfl, rfl⟩
  | true =>
    obtain ⟨m, hm⟩ := isJsonRpcRequest_method_str h1
    cases h2 : hasMethod service m with
    | false =>
      exact ⟨_, handleRpc_notFound env request service m h1 hm h2, rfl, rfl⟩
    | true =>
      cases h3 : tryInvoke env service m (getProp request "params") with
      | ok r =>
        exact ⟨_, handleRpc_success env request service m r h1 hm h2 h3,
          rfl, rfl⟩
      | error err =>
        exact ⟨_, handleRpc_caught env request service m err h1 hm h2 h3,
          rfl, rfl⟩

/-- Claim C3: every envelope produced by `handleRpc` with the default
identity transcoder satisfies the client-side validator
`isJsonRpcResponse`: `jsonrpc` is "2.0", `id` is a string, number or
`null`, exactly one of `result` / `error` is present, and a present
`error` carries a numeric `code` and a string `message`. -/
theorem handleRpc_response_isJsonRpcResponse (env : Env)
    (request service e : JsValue)
    (h : handleRpc env request service = Except.ok e) :
    isJsonRpcResponse e = true := by
  cases h1 : isJsonRpcRequest request with
  | false =>
    rw [handleRpc_invalid env request service h1] at h
    injection h with h
    subst h
    exact isJsonRpcResponse_invalidRequestEnvelope request
  | true =>
    obtain ⟨m, hm⟩ := isJsonRpcRequest_method_str h1
    cases h2 : hasMethod service m with
    | false =>
      rw [handleRpc_notFound env request service m h1 hm h2] at h
      injection h with h
      subst h
      exact isJsonRpcResponse_methodNotFoundEnvelope request m
    | true =>
      cases h3 : tryInvoke env service m (getProp request "params") with
      | ok r =>
        rw [handleRpc_success env request service m r h1 hm h2 h3] at h
        injection h with h
        subst h
        exact isJsonRpcResponse_successEnvelope request r
      | error err =>
        rw [handleRpc_caught env request service m err h1 hm h2 h3] at h
        injection h with h
        subst h
        exact isJsonRpcResponse_caughtErrorEnvelope request err

/-- Witness for C3 at a concrete input: the envelope `handleRpc` returns
for `helloRequest` against `helloService` validates. -/
theorem handleRpc_response_isJsonRpcResponse_witness :
    isJsonRpcResponse
      (successEnvelope (JsValue.num 1) (JsValue.str "Hello World!")) = true :=
  handleRpc_response_isJsonRpcResponse stdEnv helloRequest helloService
    (successEnvelope (JsValue.num 1) (JsValue.str "Hello World!")) rfl

/-- Claim C9: `handleRpc` answers notifications: a valid request whose
`id` is absent (or not a string or number, so that `getRequestId`
yields `null`) and whose method exists still produces a full success
envelope with the result of the invocation and `id = null`, carrying
the same `id` a structurally invalid request would get. -/
theorem handleRpc_answers_notifications (env : Env)
    (request service : JsValue) (m : String) (r : JsValue)
    (hreq : isJsonRpcRequest request = true)
    (hid : getRequestId request = JsValue.null)
    (hm : getProp request "method" = JsValue.str m)
    (hsvc : hasMethod service m = true)
    (hinv : tryInvoke env service m (getProp request "params") =
      Except.ok r) :
    handleRpc env request service =
      Except.ok (successEnvelope JsValue.null r) ∧
    getProp (successEnvelope JsValue.null r) "id" = JsValue.null := by
  refine ⟨?_, rfl⟩
  rw [handleRpc_success env request service m r hreq hm hsvc hinv, hid]

/-- Witness for C9: the concrete notification-style `notifRequest` is
answered with a success envelope whose id is `null`. -/
theorem handleRpc_answers_notifications_witness :
    handleRpc stdEnv notifRequest helloService =
      Except.ok (successEnvelope JsValue.null (JsValue.str "Hello World!")) ∧
    getProp (successEnvelope JsValue.null (JsValue.str "Hello World!")) "id" =
      JsValue.null :=
  handleRpc_answers_notifications stdEnv notifRequest helloService "hello"
    (JsValue.str "Hello World!") rfl rfl rfl rfl rfl

/-- Counterexample to claim C2: the method name `toString` names only an
inherited member of `helloService` (there is no own `toString`
field), yet `handleRpc` dispatches it: the call succeeds with the
result of `Object.prototype.toString` and the envelope carries no
`error` at all, instead of the claimed -32601 "Method not found"
envelope.  The lookup `hasMethod` uses the `in` operator, which
walks the prototype chain. -/
theorem handleRpc_dispatches_inherited_toString :
    hasOwnField helloService "toString" = false ∧
    hasMethod helloService "toString" = true ∧
    handleRpc stdEnv toStringRequest helloService =
      Except.ok
        (successEnvelope (JsValue.num 1) (JsValue.str "[object Object]")) ∧
    getProp
      (successEnvelope (JsValue.num 1) (JsValue.str "[object Object]"))
      "error" = JsValue.undef :=
  ⟨rfl, rfl, rfl, rfl⟩

/-- Claim C2 as amended: server-side lookup dispatches any callable
property reachable on the service, own or inherited through the
prototype chain (including inherited members such as `toString`, and
`$`-prefixed names, which are not filtered server-side); the -32601
"Method not found" envelope is returned exactly when the name does
not resolve to a function.  For a valid request with method `m`:
when `hasMethod` fails, the -32601 envelope is returned; when it
holds, the member is invoked and its outcome becomes the response. -/
theorem handleRpc_method_lookup_dispatch (env : Env)
    (request service : JsValue) (m : String)
    (hreq : isJsonRpcRequest request = true)
    (hm : getProp request "method" = JsValue.str m) :
    (hasMethod service m = false →
      handleRpc env request service =
        Except.ok (methodNotFoundEnvelope (getRequestId request) m)) ∧
    (∀ r, hasMethod service m = true →
      tryInvoke env service m (getProp request "params") = Except.ok r →
      handleRpc env request service =
        Except.ok (successEnvelope (getRequestId request) r)) ∧
    (∀ err, hasMethod service m = true →
      tryInvoke env service m (getProp request "params") = Except.error err →
      handleRpc env request service =
        Except.ok (caughtErrorEnvelope (getRequestId request) err)) :=
  ⟨fun h2 => handleRpc_notFound env request service m hreq hm h2,
   fun r h2 h3 => handleRpc_success env request service m r hreq hm h2 h3,
   fun err h2 h3 => handleRpc_caught env request service m err hreq hm h2 h3⟩

/-- Witness for the amended C2, discharging each hypothesis at concrete
inputs: an unresolvable name gets -32601, and a name that resolves
only through the prototype chain is invoked. -/
theorem handleRpc_method_lookup_dispatch_witness :
    handleRpc stdEnv nonexistentRequest helloService =
      Except.ok (methodNotFoundEnvelope (JsValue.num 2) "nonexistent") ∧
    handleRpc stdEnv toStringRequest boomService =
      Except.ok
        (successEnvelope (JsValue.num 1) (JsValue.str "[object Object]")) :=
  ⟨(handleRpc_method_lookup_dispatch stdEnv nonexistentRequest helloService
      "nonexistent" rfl rfl).1 rfl,
   (handleRpc_method_lookup_dispatch stdEnv toStringRequest boomService
      "toString" rfl rfl).2.1 (JsValue.str "[object Object]") rfl rfl⟩

/-- The value a property probe on a thrown value sees: `some` when the
property exists on the value or anywhere on its prototype chain (the
`hasProperty` guard of the source), paired with the ordinary
property read. -/
def probeProp (v : JsValue) (p : String) : Option JsValue :=
  if hasProperty v p then some (getProp v p) else none

theorem getErrorCode_probe (err : JsValue) :
    getErrorCode err =
      (match probeProp err "code" with
       | some (JsValue.num c) => c
       | _ => -32000) := by
  unfold getErrorCode probeProp
  by_cases h : hasProperty err "code"
  · cases hgp : getProp err "code" <;> simp [h, hgp]
  · simp [h]

theorem getErrorMessage_probe (err : JsValue) :
    getErrorMessage err =
      (match probeProp err "message" with
       | some (JsValue.str s) => s
       | _ => "") := by
  unfold getErrorMessage probeProp
  by_cases h : hasProperty err "message"
  · cases hgp : getProp err "message" <;> simp [h, hgp]
  · simp [h]

/-- Counterexample to claim C4: a service method throws a value with no
own `code` field whose prototype carries `code = 42`.  The claim
predicts the default `-32000` (the thrown value has no own numeric
`code`), but the envelope carries `42`: the default `getErrorCode`
probes with the `in` operator, which sees inherited properties. -/
theorem handleRpc_uses_inherited_error_code :
    hasOwnField inheritedCodeErr "code" = false ∧
    handleRpc stdEnv boomRequest boomService =
      Except.ok (caughtErrorEnvelope (JsValue.num 7) inheritedCodeErr) ∧
    getProp
      (getProp (caughtErrorEnvelope (JsValue.num 7) inheritedCodeErr) "error")
      "code" = JsValue.num 42 :=
  ⟨rfl, rfl, rfl⟩

/-- Claim C4 as amended: for every valid request whose service method
throws, `handleRpc` with default options returns an error envelope
whose code is the thrown value `code` property - read through the
prototype chain, not only own fields - when that is a number and
-32000 otherwise, and whose message is the thrown value `message`
property (same lookup) when that is a string and the empty string
otherwise. -/
theorem handleRpc_default_error_mapping (env : Env)
    (request service : JsValue) (m : String) (err : JsValue)
    (hreq : isJsonRpcRequest request = true)
    (hm : getProp request "method" = JsValue.str m)
    (hsvc : hasMethod service m = true)
    (hinv : tryInvoke env service m (getProp request "params") =
      Except.error err) :
    ∃ e, handleRpc env request service = Except.ok e ∧
      getProp (getProp e "error") "code" =
        JsValue.num
          (match probeProp err "code" with
           | some (JsValue.num c) => c
           | _ => -32000) ∧
      getProp (getProp e "error") "message" =
        JsValue.str
          (match probeProp err "message" with
           | some (JsValue.str s) => s
           | _ => "") := by
  refine ⟨caughtErrorEnvelope (getRequestId request) err,
    handleRpc_caught env request service m err hreq hm hsvc hinv, ?_, ?_⟩
  · rw [← getErrorCode_probe]
    rfl
  · rw [← getErrorMessage_probe]
    rfl

/-- Witness for the amended C4 at a concrete input: the thrown
`inheritedCodeErr` maps to code 42 and the empty message. -/
theorem handleRpc_default_error_mapping_witness :
    ∃ e, handleRpc stdEnv boomRequest boomService = Except.ok e ∧
      getProp (getProp e "error") "code" =
        JsValue.num
          (match probeProp inheritedCodeErr "code" with
           | some (JsValue.num c) => c
           | _ => -32000) ∧
      getProp (getProp e "error") "message" =
        JsValue.str
          (match probeProp inheritedCodeErr "message" with
           | some (JsValue.str s) => s
           | _ => "") :=
  handleRpc_default_error_mapping stdEnv boomRequest boomService "boom"
    inheritedCodeErr rfl rfl rfl rfl

theorem removeTrailingUndefs_replicate_undef (K : Nat) :
    removeTrailingUndefs (List.replicate K JsValue.undef) = [] := by
  induction K with
  | zero => rfl
  | succ k ih =>
    rw [List.replicate_succ]
    unfold removeTrailingUndefs
    rw [ih]
    rfl

theorem removeTrailingUndefs_append_replicate (args : List JsValue)
    (K : Nat) :
    removeTrailingUndefs (args ++ List.replicate K JsValue.undef) =
      removeTrailingUndefs args := by
  induction args with
  | nil =>
    rw [List.nil_append, removeTrailingUndefs_replicate_undef]
    rfl
  | cons x xs ih =>
    rw [List.cons_append]
    unfold removeTrailingUndefs
    rw [ih]

theorem wireParams_createRequest (now : Int) (method : String)
    (ps : List JsValue) :
    wireParams (createRequest now method (some ps)) =
      if ps.length != 0 then some (JsValue.arr (removeTrailingUndefs ps))
      else none := by
  simp only [createRequest]
  split
  · rfl
  · rfl

/-- Counterexample to claim C5 at N = 0, K = 1: a call with zero explicit
arguments and one trailing `undefined` argument carries an own, empty
`params` array on the wire (`params?.length` tests the length of the
original argument list), while the zero-argument call carries no
`params` at all; the two wire forms differ. -/
theorem createRequest_empty_args_params_mismatch :
    wireParams (createRequest 0 "m" (some [JsValue.undef])) =
      some (JsValue.arr []) ∧
    wireParams (createRequest 0 "m" (some [])) = none :=
  ⟨rfl, rfl⟩

/-- Claim C5 as amended: trailing-argument trimming is idempotent on the
wire whenever at least one explicit argument is passed (or no extra
arguments are appended): the request built from N explicit arguments
followed by K omitted/undefined arguments carries wire `params`
identical to the request built from the N arguments alone, for every
N >= 1 and K >= 0 (and trivially for K = 0); the only divergence is
the N = 0, K >= 1 case of the counterexample, where the longer call
carries an own empty `params` array and the bare call omits the
field. -/
theorem createRequest_trailing_undef_trimming (now now2 : Int)
    (method : String) (args : List JsValue) (K : Nat)
    (h : args ≠ [] ∨ K = 0) :
    wireParams
      (createRequest now method
        (some (args ++ List.replicate K JsValue.undef))) =
    wireParams (createRequest now2 method (some args)) := by
  rw [wireParams_createRequest, wireParams_createRequest,
    removeTrailingUndefs_append_replicate]
  rcases h with h | h
  · have hlen : args.length ≠ 0 := fun hc => h (List.eq_nil_of_length_eq_zero hc)
    have hlen2 : (args ++ List.replicate K JsValue.undef).length ≠ 0 := by
      rw [List.length_append]
      omega
    simp [hlen, hlen2]
  · subst h
    rw [List.replicate_zero, List.append_nil]

/-- Witness for the amended C5: one explicit argument plus two trailing
undefined arguments yields the same wire `params` as the explicit
argument alone. -/
theorem createRequest_trailing_undef_trimming_witness :
    wireParams
      (createRequest 3 "hello"
        (some ([JsValue.str "World"] ++
          List.replicate 2 JsValue.undef))) =
    wireParams (createRequest 9 "hello" (some [JsValue.str "World"])) :=
  createRequest_trailing_undef_trimming 3 9 "hello" [JsValue.str "World"] 2
    (Or.inl (by simp))

theorem getProp_createRequest_id (now : Int) (method : String)
    (params : Option (List JsValue)) :
    getProp (createRequest now method params) "id" = JsValue.num now := by
  cases params with
  | none => rfl
  | some ps =>
    simp only [createRequest]
    split
    · rfl
    · rfl

/-- Claim C8: every request envelope built by `createRequest` carries
`id: Date.now()` as a number (the clock reading `now`): the id is an
own field and is never `null`, so a client call is never a
notification, and two requests built during the same millisecond
(same `now`) receive the same id regardless of method or arguments -
ids are not unique across concurrent in-flight calls. -/
theorem createRequest_id_from_clock (now : Int) (method : String)
    (params : Option (List JsValue)) :
    getProp (createRequest now method params) "id" = JsValue.num now ∧
    hasOwnField (createRequest now method params) "id" = true ∧
    ∀ method2 params2,
      getProp (createRequest now method2 params2) "id" =
        getProp (createRequest now method params) "id" := by
  refine ⟨getProp_createRequest_id now method params, ?_, ?_⟩
  · cases params with
    | none => rfl
    | some ps =>
      simp only [createRequest]
      split
      · rfl
      · rfl
  · intro method2 params2
    rw [getProp_createRequest_id, getProp_createRequest_id]

/-- Claim C6 (code bug witnessed at a concrete input): on a fresh
`src/ws.ts` transport with the default timeout (60000, zero would
disable the timer), a call with id 1 whose response never arrives is
rejected with the timeout-kind `RpcError("Request timed out",
-32000)` when its timer fires - but its entry is still in the
pending-call map afterwards: the timeout handler never deletes it,
so the map slot leaks, contrary to the specification. -/
theorem wsTimeout_rejects_but_leaks_entry :
    (wsInit none).timeout = 60000 ∧
    ((wsSend (wsInit (some 0)) helloRequest).calls.get? 0).map
        PendingCall.timerActive = some false ∧
    ((wsFireTimeout (wsSend (wsInit none) helloRequest) 0).calls.get? 0).map
        PendingCall.promise =
      some (PromiseState.rejected "Request timed out" (-32000)) ∧
    mapGet (wsFireTimeout (wsSend (wsInit none) helloRequest) 0).map
        (WsKey.n 1) = some 0 :=
  ⟨rfl, rfl, rfl, rfl⟩

/-- Counterexample to claim C7: the `src/ws.ts` transport has no
duplicate-id check.  Sending a second call while id 1 is still
pending does not fail; `Map.set` silently repoints the map entry to
the new call (index 1), orphaning the first call, which stays
pending with no map entry of its own. -/
theorem wsSend_overwrites_duplicate_id :
    (wsSend (wsSend (wsInit none) helloRequest) helloRequest).map =
      [(WsKey.n 1, 1)] ∧
    ((wsSend (wsSend (wsInit none) helloRequest) helloRequest).calls.get?
        0).map PendingCall.promise = some PromiseState.pending :=
  ⟨rfl, rfl⟩

theorem mapGet_mapSet_self (m : List (WsKey × Nat)) (k : WsKey) (i : Nat) :
    mapGet (mapSet m k i) k = some i := by
  induction m with
  | nil => simp [mapSet, mapGet]
  | cons e rest ih =>
    by_cases h : e.1 = k
    · simp [mapSet, mapGet, h]
    · simp [mapSet, mapGet, h, ih]

/-- Claim C7 as amended: the duplicate-id guard exists only in the
`websocketTransport` variant embedded in `src/client.ts`: there, a
call whose id is already pending throws
`RpcError("Request already exists", -32000)` and leaves no trace,
and a call with a fresh id registers its Pending Call (keyed by the
request id, before the message reaches `ws.send`).  The `src/ws.ts`
variant has no such check and overwrites (see the
counterexample). -/
theorem clientWsSend_duplicate_id_check (st : WsState) (req : JsValue) :
    ((mapGet st.map (keyOfId (getProp req "id"))).isSome = true →
      clientWsSend st req =
        Except.error { message := "Request already exists", code := -32000 }) ∧
    ((mapGet st.map (keyOfId (getProp req "id"))).isSome = false →
      ∃ st2, clientWsSend st req = Except.ok st2 ∧
        mapGet st2.map (keyOfId (getProp req "id")) = some st.calls.length ∧
        st2.calls.get? st.calls.length =
          some { key := keyOfId (getProp req "id"),
                 timerActive := decide (st.timeout > 0),
                 promise := PromiseState.pending } ∧
        st2.sent = st.sent ++ [req]) := by
  constructor
  · intro h
    simp [clientWsSend, h]
  · intro h
    refine ⟨{ st with
        calls := st.calls ++
          [{ key := keyOfId (getProp req "id"),
             timerActive := decide (st.timeout > 0),
             promise := PromiseState.pending }]
        map := mapSet st.map (keyOfId (getProp req "id")) st.calls.length
        sent := st.sent ++ [req] }, ?_, ?_, ?_, rfl⟩
    · simp [clientWsSend, h]
    · exact mapGet_mapSet_self st.map _ st.calls.length
    · simp

/-- A transport state in which id 1 is still pending. -/
def dupState : WsState :=
  { timeout := 60000, map := [(WsKey.n 1, 0)],
    calls := [{ key := WsKey.n 1, timerActive := true,
                promise := PromiseState.pending }],
    sent := [helloRequest] }

/-- Witness for the amended C7 at concrete inputs: a duplicate id fails
with the protocol-misuse error, and a fresh id registers its pending
call before sending. -/
theorem clientWsSend_duplicate_id_check_witness :
    clientWsSend dupState helloRequest =
      Except.error { message := "Request already exists", code := -32000 } ∧
    (∃ st2, clientWsSend (wsInit none) helloRequest = Except.ok st2 ∧
      mapGet st2.map (keyOfId (getProp helloRequest "id")) = some 0 ∧
      st2.calls.get? 0 =
        some { key := keyOfId (getProp helloRequest "id"),
               timerActive := true,
               promise := PromiseState.pending } ∧
      st2.sent = [helloRequest]) :=
  ⟨(clientWsSend_duplicate_id_check dupState helloRequest).1 rfl,
   (clientWsSend_duplicate_id_check (wsInit none) helloRequest).2 rfl⟩

theorem findField_setField_self (fields : List (String × JsValue))
    (k : String) (v : JsValue) :
    findField (setField fields k v) k = some v := by
  induction fields with
  | nil => simp [setField, findField]
  | cons f rest ih =>
    by_cases hf : f.1 = k
    · simp [setField, findField, hf]
    · simp [setField, findField, hf, ih]

theorem findField_setField_other (fields : List (String × JsValue))
    (k k2 : String) (v : JsValue) (hne : k2 ≠ k) :
    findField (setField fields k v) k2 = findField fields k2 := by
  induction fields with
  | nil => simp [setField, findField, Ne.symm hne]
  | cons f rest ih =>
    by_cases hf : f.1 = k
    · have h2 : f.1 ≠ k2 := by
        rw [hf]
        exact Ne.symm hne
      simp [setField, findField, hf, h2, Ne.symm hne]
    · by_cases hf2 : f.1 = k2
      · simp [setField, findField, hf, hf2, hne]
      · simp [setField, findField, hf, hf2, ih]

theorem any_key_eq_findField_isSome (fields : List (String × JsValue))
    (k : String) :
    fields.any (fun f => f.1 == k) = (findField fields k).isSome := by
  induction fields with
  | nil => rfl
  | cons f rest ih =>
    by_cases hf : f.1 = k
    · simp [findField, hf]
    · simp [findField, hf, ih]

theorem getProp_obj (fields : List (String × JsValue))
    (proto : Option JsValue) (p : String) :
    getProp (JsValue.obj fields proto) p =
      (match findField fields p, proto with
       | some v, _ => v
       | none, some pr => getProp pr p
       | none, none => JsValue.undef) := by
  rw [getProp.eq_def]

theorem getProp_setOwnField_self (fields : List (String × JsValue))
    (proto : Option JsValue) (k : String) (v : JsValue) :
    getProp (setOwnField (JsValue.obj fields proto) k v) k = v := by
  simp only [setOwnField]
  rw [getProp_obj, findField_setField_self]

theorem hasOwnField_setOwnField_self (fields : List (String × JsValue))
    (proto : Option JsValue) (k : String) (v : JsValue) :
    hasOwnField (setOwnField (JsValue.obj fields proto) k v) k = true := by
  simp [setOwnField, hasOwnField, any_key_eq_findField_isSome,
    findField_setField_self fields k v]

theorem getProp_setOwnField_other (fields : List (String × JsValue))
    (proto : Option JsValue) (k k2 : String) (v : JsValue) (hne : k2 ≠ k) :
    getProp (setOwnField (JsValue.obj fields proto) k v) k2 =
      getProp (JsValue.obj fields proto) k2 := by
  simp only [setOwnField]
  rw [getProp_obj, getProp_obj, findField_setField_other fields k k2 v hne]

/-- Claim C10: the default `getErrorData` mutates the thrown value.
When a service method throws an object carrying a JSON-serializable
`data` property (one `JSON.stringify` does not map to `undefined`),
the own `data` field of that object is overwritten in place with the
JSON round-tripped copy (and created when the property was only
inherited), the copy is also what the function returns, and every
other property read on the object is unchanged.  When `data` is
present but not JSON-serializable, the object is left untouched and
`data` is returned unmodified. -/
theorem getErrorData_roundtrips_data_in_place
    (fields : List (String × JsValue)) (proto : Option JsValue)
    (hdata : hasProperty (JsValue.obj fields proto) "data" = true) :
    (∀ d2,
      jsonRoundTrip (getProp (JsValue.obj fields proto) "data") = some d2 →
      getErrorData (JsValue.obj fields proto) =
        (setOwnField (JsValue.obj fields proto) "data" d2, d2) ∧
      getProp (setOwnField (JsValue.obj fields proto) "data" d2) "data" =
        d2 ∧
      hasOwnField (setOwnField (JsValue.obj fields proto) "data" d2)
        "data" = true ∧
      (∀ k, k ≠ "data" →
        getProp (setOwnField (JsValue.obj fields proto) "data" d2) k =
          getProp (JsValue.obj fields proto) k)) ∧
    (jsonRoundTrip (getProp (JsValue.obj fields proto) "data") = none →
      getErrorData (JsValue.obj fields proto) =
        (JsValue.obj fields proto,
          getProp (JsValue.obj fields proto) "data")) := by
  constructor
  · intro d2 hrt
    refine ⟨?_, getProp_setOwnField_self fields proto "data" d2,
      hasOwnField_setOwnField_self fields proto "data" d2,
      fun k hk => getProp_setOwnField_other fields proto "data" k d2 hk⟩
    simp [getErrorData, hdata, hrt]
  · intro hrt
    simp [getErrorData, hdata, hrt]

/-- The own fields of the thrown value used in the C10 witness. -/
def dataErrFields : List (String × JsValue) :=
  [("message", JsValue.str "boom"),
   ("data",
    JsValue.obj [("a", JsValue.num 1), ("f", JsValue.func 7)]
      (some objectPrototype))]

/-- A thrown value with a serializable `data` property (the function
field inside is dropped by the round trip). -/
def dataErr : JsValue := JsValue.obj dataErrFields (some objectPrototype)

/-- The JSON round-tripped copy of the `data` of `dataErr`. -/
def dataCopy : JsValue :=
  JsValue.obj [("a", JsValue.num 1)] (some objectPrototype)

/-- A thrown value whose `data` is a bare function, which
`JSON.stringify` maps to `undefined`. -/
def badDataErr : JsValue :=
  JsValue.obj [("data", JsValue.func 3)] (some objectPrototype)

/-- Witness for C10 at concrete inputs: a serializable `data` is
overwritten with its round-tripped copy and returned; a
non-serializable `data` leaves the thrown value untouched. -/
theorem getErrorData_roundtrips_data_in_place_witness :
    getErrorData dataErr =
      (setOwnField dataErr "data" dataCopy, dataCopy) ∧
    getErrorData badDataErr = (badDataErr, JsValue.func 3) :=
  ⟨((getErrorData_roundtrips_data_in_place dataErrFields
      (some objectPrototype) rfl).1 dataCopy rfl).1,
   (getErrorData_roundtrips_data_in_place [("data", JsValue.func 3)]
      (some objectPrototype) rfl).2 rfl⟩
